import Mathlib

/-
Verification of the easydiffraction refinement engine against its
natural-language specification.

The relevant Python sources are shallowly embedded below:
  * analysis/minimizers/base.py        (MinimizerBase, chi-square tracking)
  * analysis/minimization.py           (DiffractionMinimizer, residual function)
  * analysis/minimizers/minimizer_lmfit.py (LmfitMinimizer, name sanitization)
  * analysis/analysis.py               (Analysis.fit guards, calculate_pattern)
  * core/component_base.py             (StandardComponent attribute semantics)

Machine floats are embedded as exact rationals, except where numpy's
behaviour on division by a non-positive degree-of-freedom count matters;
there an explicit IEEE-style value lattice (NpFloat) is used.

Parts of the repository referenced by this code but absent from the source
tree (core/parameter.py, base_collection.py, minimizers/factory.py,
minimizers/chi_square_tracker.py, the calculators package) are modelled
from the specification; each such definition is marked in its doc comment.
-/

namespace EasyDiffraction

/-- Modelled from the spec: `core/parameter.py` is referenced throughout the
repository but missing from the source tree.  Per spec section 3 a Parameter is
a boxed refinable scalar with a stable identity, a CIF-style name, a value, a
`free` flag, optional bounds, an optional uncertainty (set only after a
successful fit) and an optional `start_value` snapshot.  The `uid` field stands
for Python object identity. -/
structure Parameter where
  uid : Nat
  cif_name : String
  value : ℚ
  free : Bool
  start_value : Option ℚ := none
  uncertainty : Option ℚ := none
  vmin : Option ℚ := none
  vmax : Option ℚ := none
  units : String := ""
  deriving Repr, DecidableEq

/-- Modelled from the spec: a Descriptor is like Parameter but never refinable;
only Parameter instances are eligible for collection (spec section 3). -/
structure Descriptor where
  uid : Nat
  cif_name : String
  value : ℚ
  deriving Repr, DecidableEq

/-- IEEE-754 style value lattice embedding the numpy floating point results of
the chi-square computation.  Finite values are kept exact as rationals; the
`inf`, `ninf` and `nan` points record what numpy produces when
`MinimizerBase._track_chi_square` divides by a zero or negative
degrees-of-freedom count instead of raising an error. -/
inductive NpFloat where
  | fin (q : ℚ)
  | inf
  | ninf
  | nan
  deriving Repr, DecidableEq

/-- IEEE subtraction on the embedded float lattice. -/
def NpFloat.sub : NpFloat → NpFloat → NpFloat
  | nan, _ => nan
  | _, nan => nan
  | fin a, fin b => fin (a - b)
  | fin _, inf => ninf
  | fin _, ninf => inf
  | inf, fin _ => inf
  | ninf, fin _ => ninf
  | inf, inf => nan
  | inf, ninf => inf
  | ninf, inf => ninf
  | ninf, ninf => nan

/-- IEEE division on the embedded float lattice: a nonzero finite value divided
by zero gives a signed infinity, zero by zero gives nan (numpy emits a runtime
warning and carries on). -/
def NpFloat.div : NpFloat → NpFloat → NpFloat
  | nan, _ => nan
  | _, nan => nan
  | fin a, fin b =>
      if b = 0 then (if a > 0 then inf else if a < 0 then ninf else nan)
      else fin (a / b)
  | fin _, inf => fin 0
  | fin _, ninf => fin 0
  | inf, fin b => if b < 0 then ninf else inf
  | ninf, fin b => if b < 0 then inf else ninf
  | inf, inf => nan
  | inf, ninf => nan
  | ninf, inf => nan
  | ninf, ninf => nan

/-- IEEE strict comparison: any comparison involving nan is false. -/
def NpFloat.lt : NpFloat → NpFloat → Bool
  | nan, _ => false
  | _, nan => false
  | fin a, fin b => a < b
  | fin _, inf => true
  | fin _, ninf => false
  | inf, _ => false
  | ninf, ninf => false
  | ninf, _ => true

/-- IEEE strict greater-than. -/
def NpFloat.gt (a b : NpFloat) : Bool := NpFloat.lt b a

/-- Chi-square bookkeeping state of `MinimizerBase` (base.py lines 54-57):
`_previous_chi2`, `_iteration`, `_best_chi2`, `_best_iteration`. -/
structure TrackerState where
  previous_chi2 : Option NpFloat := none
  iteration : Nat := 0
  best_chi2 : Option NpFloat := none
  best_iteration : Option Nat := none
  deriving Repr, DecidableEq

/-- base.py lines 90-92: `chi2 = np.sum(residuals ** 2)` and
`red_chi2 = chi2 / (n_points - len(parameters))`.  The denominator is a Python
integer that may be zero or negative; the division is numpy float division,
embedded via `NpFloat.div`.  There is no guard. -/
def redChiSquare (residuals : List ℚ) (nParams : Nat) : NpFloat :=
  let chi2 : ℚ := (residuals.map (fun r => r * r)).sum
  let dof : Int := (residuals.length : Int) - (nParams : Int)
  NpFloat.div (NpFloat.fin chi2) (NpFloat.fin (dof : ℚ))

/-- base.py lines 89-108, `MinimizerBase._track_chi_square`: computes the
reduced chi-square, on the first call records it as previous and best, on later
calls advances the iteration counter exactly when the relative improvement over
the previously recorded value exceeds 0.01, then updates the best-seen value
and its iteration index, and finally returns the residual vector unchanged.
The float literal 0.01 is embedded as the rational 1/100. -/
def trackChiSquare (st : TrackerState) (residuals : List ℚ) (nParams : Nat) :
    List ℚ × TrackerState :=
  let red := redChiSquare residuals nParams
  let st1 :=
    match st.previous_chi2 with
    | none =>
        { st with previous_chi2 := some red, best_chi2 := some red,
                  best_iteration := some st.iteration }
    | some prev =>
        if NpFloat.gt (NpFloat.div (NpFloat.sub prev red) prev) (NpFloat.fin (1/100)) then
          { st with iteration := st.iteration + 1, previous_chi2 := some red }
        else st
  let st2 :=
    match st1.best_chi2 with
    | none =>
        { st1 with best_chi2 := some red, best_iteration := some st1.iteration }
    | some best =>
        if NpFloat.lt red best then
          { st1 with best_chi2 := some red, best_iteration := some st1.iteration }
        else st1
  (residuals, st2)

/-- Folding `_track_chi_square` over a list of objective evaluations, i.e. the
tracker state reached after a sequence of calls within one fit. -/
def runTracker (st : TrackerState) (calls : List (List ℚ × Nat)) : TrackerState :=
  calls.foldl (fun s c => (trackChiSquare s c.1 c.2).2) st

/-- The previous/iteration half of `_track_chi_square` (base.py lines 94-102),
split out verbatim so the two state-update layers can be reasoned about
separately; `trackChiSquare` is proved equal to their composition. -/
def trackPrevUpdate (st : TrackerState) (red : NpFloat) : TrackerState :=
  match st.previous_chi2 with
  | none =>
      { st with previous_chi2 := some red, best_chi2 := some red,
                best_iteration := some st.iteration }
  | some prev =>
      if NpFloat.gt (NpFloat.div (NpFloat.sub prev red) prev) (NpFloat.fin (1/100)) then
        { st with iteration := st.iteration + 1, previous_chi2 := some red }
      else st

/-- The best-so-far half of `_track_chi_square` (base.py lines 104-106). -/
def trackBestUpdate (st1 : TrackerState) (red : NpFloat) : TrackerState :=
  match st1.best_chi2 with
  | none =>
      { st1 with best_chi2 := some red, best_iteration := some st1.iteration }
  | some best =>
      if NpFloat.lt red best then
        { st1 with best_chi2 := some red, best_iteration := some st1.iteration }
      else st1

/-- The measured-data store of one experiment
(`experiment.datastore.pattern`): x grid, measured intensities, measured
uncertainties, plus the background and calculated arrays written by
`Analysis.calculate_pattern`.  The concrete datastore class is created by the
missing `DatastoreFactory`; the field names are those used by the sources. -/
structure DiffrPattern where
  x : List ℚ := []
  meas : List ℚ := []
  meas_su : List ℚ := []
  bkg : Option (List ℚ) := none
  calcd : Option (List ℚ) := none
  deriving Repr, DecidableEq

/-- One experiment: its pattern data, its line-segment background points
(pairs of x and intensity, as in `experiment.background.points`), and the
parameters owned by its sub-components, flattened in insertion order. -/
structure Experiment where
  id : String
  pattern : DiffrPattern := {}
  background : List (ℚ × ℚ) := []
  params : List Parameter := []
  deriving Repr, DecidableEq

/-- One sample model: the parameters owned by its sub-components (space group,
cell, atom sites), flattened in insertion order. -/
structure SampleModel where
  id : String
  params : List Parameter := []
  deriving Repr, DecidableEq

/-- The calculator contract (spec section 6; the calculators package is not
under the source tree): `calculate_pattern(sample_models, experiment)` returns
an intensity array aligned with the experiment's measured x grid, pure given
its inputs.  Because the Python calculator reads parameter values through the
live objects, the embedded calculator receives the current values of the
collected parameters as an explicit first argument. -/
def Calculator : Type :=
  List Parameter → List SampleModel → Experiment → List ℚ

/-- Modelled from the spec: `base_collection.py` (`BaseCollection.get_free_params`)
is missing from the source tree.  Per spec section 4.1 it traverses every item
in insertion order and selects the parameters whose `free` flag is true, with
no side effect other than reading `free`; the unchanged collection is returned
alongside the list to make the absence of writes explicit. -/
def SampleModels.get_free_params (ms : List SampleModel) :
    List Parameter × List SampleModel :=
  ((ms.map (fun m => m.params.filter (fun p => p.free))).flatten, ms)

/-- Modelled from the spec: the experiments-side counterpart of
`get_free_params`, same contract. -/
def Experiments.get_free_params (es : List Experiment) :
    List Parameter × List Experiment :=
  ((es.map (fun e => e.params.filter (fun p => p.free))).flatten, es)

/-- minimization.py line 47 and base.py line 87:
`sample_models.get_free_params() + experiments.get_free_params()`. -/
def collectFreeParameters (ms : List SampleModel) (es : List Experiment) :
    List Parameter :=
  (SampleModels.get_free_params ms).1 ++ (Experiments.get_free_params es).1

/-- All parameters in traversal order (sample models first, then experiments,
each in insertion order); used to state the order property of the collector. -/
def traversalParameters (ms : List SampleModel) (es : List Experiment) :
    List Parameter :=
  (ms.map (fun m => m.params)).flatten ++ (es.map (fun e => e.params)).flatten

/-- Modelled from the spec: `_sync_result_to_parameters` is declared abstract
in base.py and its concrete implementation is not under the source tree.  Per
spec section 4.2 step 1 it writes each optimizer-supplied value onto the
corresponding Parameter, positionally in the collected order. -/
def syncResultToParameters (params : List Parameter) (vec : List ℚ) :
    List Parameter :=
  List.zipWith (fun p v => { p with value := v }) params vec

/-- Three-way zip used to embed the numpy elementwise expression
`(y_meas - y_calc) / y_meas_su`. -/
def zipWith3Q (f : ℚ → ℚ → ℚ → ℚ) : List ℚ → List ℚ → List ℚ → List ℚ
  | a :: as, b :: bs, c :: cs => f a b c :: zipWith3Q f as bs cs
  | _, _, _ => []

/-- minimization.py line 62: the per-point residual array
`(y_meas - y_calc) / y_meas_su` of one experiment. -/
def residualPoints (meas yCalc su : List ℚ) : List ℚ :=
  zipWith3Q (fun m c s => (m - c) / s) meas yCalc su

/-- minimization.py lines 49-66, `DiffractionMinimizer._residual_function`:
syncs the optimizer-provided values onto the collected parameters, then for
each experiment in declaration order computes the per-point residuals from the
calculator output and the measured data, concatenates them, and passes the
vector through the chi-square tracker.  The tracker object
(`minimizers/chi_square_tracker.py`) is missing from the source tree; per the
spec section 4.3 contract `track` is the pass-through side-effecting
computation embedded by `trackChiSquare`, which is also the in-source
`MinimizerBase._track_chi_square`. -/
def residualFunction (tracker : TrackerState) (calculator : Calculator)
    (params : List Parameter) (engineVec : List ℚ)
    (ms : List SampleModel) (es : List Experiment) : List ℚ × TrackerState :=
  let synced := syncResultToParameters params engineVec
  let residuals :=
    (es.map (fun e =>
      residualPoints e.pattern.meas (calculator synced ms e) e.pattern.meas_su)).flatten
  trackChiSquare tracker residuals params.length

/-- analysis.py lines 97-103: `scipy.interpolate.interp1d(..., kind='linear',
bounds_error=False, fill_value=(bg_y[0], bg_y[-1]))` evaluated at one point,
for background points assumed sorted by x.  Below the first point it returns
the first intensity, beyond the last point the last intensity, otherwise it
interpolates linearly on the bracketing segment. -/
def interpAfter : (ℚ × ℚ) → List (ℚ × ℚ) → ℚ → ℚ
  | (_, y0), [], _ => y0
  | (x0, y0), (x1, y1) :: rest, x =>
      if x ≤ x1 then y0 + (y1 - y0) * (x - x0) / (x1 - x0)
      else interpAfter (x1, y1) rest x

/-- Linear interpolation with edge fill over the whole point list. -/
def interpSegments (pts : List (ℚ × ℚ)) (x : ℚ) : ℚ :=
  match pts with
  | [] => 0
  | (x0, y0) :: rest => if x ≤ x0 then y0 else interpAfter (x0, y0) rest x

/-- analysis.py lines 87-114, `Analysis.calculate_pattern`: interpolates the
experiment's background points onto the measured x grid (zeros when no points
are defined), calls the calculator, adds the interpolated background, stores
both arrays in the datastore, and returns the calculated pattern with
background. -/
def analysisCalculatePattern (calculator : Calculator) (env : List Parameter)
    (ms : List SampleModel) (e : Experiment) : List ℚ × Experiment :=
  let xs := e.pattern.x
  let interpolatedBkg :=
    if e.background = [] then xs.map (fun _ => 0)
    else xs.map (interpSegments e.background)
  let calculatedPattern := calculator env ms e
  let withBkg := List.zipWith (fun a b => a + b) calculatedPattern interpolatedBkg
  (withBkg,
   { e with pattern :=
      { e.pattern with bkg := some interpolatedBkg, calcd := some withBkg } })

/-- Association-list lookup returning the first binding of a key; embeds the
lookup behaviour of Python dict-like containers (first stored binding is the
one subsequent writes overwrite). -/
def alistGet {α : Type} : List (String × α) → String → Option α
  | [], _ => none
  | p :: rest, k => if p.1 = k then some p.2 else alistGet rest k

/-- Association-list write with dict semantics: replace the first binding of
the key when present, otherwise append the new binding at the end (insertion
order preserved, later writes to the same key overwrite). -/
def alistSet {α : Type} : List (String × α) → String → α → List (String × α)
  | [], k, v => [(k, v)]
  | p :: rest, k, v => if p.1 = k then (k, v) :: rest else p :: alistSet rest k v

/-- minimizer_lmfit.py lines 28-33 and 46-51: the backend name sanitization
`raw_name.replace("[", "_").replace("]", "").replace(".", "_").replace("'", "")`.
The four replacements act on distinct single characters and produce no
character that a later replacement consumes, so the sequential full-string
replaces coincide with one character-wise pass. -/
def sanitizeChar (c : Char) : Option Char :=
  if c = '[' then some (Char.ofNat 95)
  else if c = ']' then none
  else if c = '.' then some (Char.ofNat 95)
  else if c = Char.ofNat 39 then none
  else some c

/-- The full lmfit name sanitization applied to a parameter's `cif_name`. -/
def sanitizeLmName (s : String) : String :=
  String.mk (s.toList.filterMap sanitizeChar)

/-- minimizer_lmfit.py lines 23-40: `lmfit.Parameters()` populated by
`lm_params.add(name=..., value=...)` for each collected parameter; `add` on an
already present name overwrites that binding. -/
def buildLmParams (params : List Parameter) : List (String × ℚ) :=
  params.foldl (fun acc p => alistSet acc (sanitizeLmName p.cif_name) p.value) []

/-- minimizer_lmfit.py lines 44-53 (inside `objective_function`): for every
collected parameter, read the backend value stored under its sanitized name
and write it onto the parameter.  Every sanitized name is present in the
backend container by construction, so the default branch is inert. -/
def syncFromLmParams (params : List Parameter) (lm : List (String × ℚ)) :
    List Parameter :=
  params.map (fun p =>
    { p with value := (alistGet lm (sanitizeLmName p.cif_name)).getD p.value })

/-- The backend container holding value `v i` under the i-th collected
parameter's sanitized name: the container built by repeated `add` calls in the
collected order, as in minimizer_lmfit.py lines 23-40. -/
def lmParamsFrom (params : List Parameter) (vs : List ℚ) : List (String × ℚ) :=
  (List.zipWith (fun p v => (sanitizeLmName p.cif_name, v)) params vs).foldl
    (fun acc kv => alistSet acc kv.1 kv.2) []

/-- The part of an `lmfit.MinimizerResult` that the claims mention: the final
solution values per backend name, the standard-error estimates per backend
name, and the success flag with message. -/
structure LmResult where
  solution : List (String × ℚ) := []
  stderr : List (String × Option ℚ) := []
  success : Bool := true
  message : String := ""
  deriving Repr, DecidableEq

/-- One run of `lmfit.Minimizer.minimize()` seen from outside: the sequence of
backend parameter containers passed to the objective function, in call order,
and the returned result object. -/
structure SolverRun where
  evals : List (List (String × ℚ)) := []
  result : LmResult := {}
  deriving Repr, DecidableEq

/-- minimizer_lmfit.py lines 14-71, `LmfitMinimizer.fit`: builds the lmfit
parameter container, lets the solver drive the objective function (each call
of which syncs the backend values onto the collected parameters through the
sanitized names), and returns the raw solver result.  The method returns at
line 71; the block at lines 73-88 headed by the comment about updating
parameters with refined values sits after that return statement and never
executes, so the model ends with the return. -/
def lmfitMinimizerFit (params : List Parameter)
    (solver : List (String × ℚ) → SolverRun) : LmResult × List Parameter :=
  let lm0 := buildLmParams params
  let run := solver lm0
  let finalParams := run.evals.foldl (fun ps lm => syncFromLmParams ps lm) params
  (run.result, finalParams)

/-- The positional calling convention of a Python method: the named positional
parameters without defaults (excluding `self`) and those with defaults. -/
structure PySignature where
  required : List String
  optional : List String
  deriving Repr, DecidableEq

/-- Whether a Python call supplying `n` positional arguments binds a
signature without a TypeError: at least every required parameter receives an
argument and no argument is left over. -/
def acceptsPositional (sig : PySignature) (n : Nat) : Bool :=
  decide (sig.required.length ≤ n) &&
  decide (n ≤ sig.required.length + sig.optional.length)

/-- minimizer_lmfit.py line 14:
`def fit(self, parameters, sample_models, experiments, calculator=None)`. -/
def lmfitMinimizerFitSig : PySignature :=
  { required := ["parameters", "sample_models", "experiments"],
    optional := ["calculator"] }

/-- base.py line 124: `def fit(self, sample_models, experiments, calculator)`. -/
def minimizerBaseFitSig : PySignature :=
  { required := ["sample_models", "experiments", "calculator"],
    optional := [] }

/-- minimization.py line 34: the orchestrator invokes
`self.minimizer.fit(parameters, objective_function)` with exactly two
positional arguments. -/
def orchestratorFitCallArgCount : Nat := 2

/-- The project state seen by `Analysis.fit` (analysis.py lines 164-188): the
sample models and experiments collections and the currently assigned
calculator. -/
structure Project where
  sample_models : List SampleModel := []
  experiments : List Experiment := []
  calculator : Option Calculator := none

/-- Outcome of one top-level fit call: each abort constructor corresponds to
one early `return` in analysis.py lines 164-188 or minimization.py lines
24-26, and `ran` to reaching the optimizer. -/
inductive FitOutcome where
  | abortedNoSampleModels
  | abortedNoExperiments
  | abortedNoCalculator
  | abortedNoFreeParams
  | ran
  deriving Repr, DecidableEq

/-- The descriptive message printed on each abort path (source text without
the leading emoji); `none` when the fit proceeded to the optimizer. -/
def abortMessage : FitOutcome → Option String
  | FitOutcome.abortedNoSampleModels =>
      some "No sample models found in the project. Cannot run fit."
  | FitOutcome.abortedNoExperiments =>
      some "No experiments found in the project. Cannot run fit."
  | FitOutcome.abortedNoCalculator =>
      some "No calculator is set. Cannot run fit."
  | FitOutcome.abortedNoFreeParams =>
      some "No parameters selected for refinement. Aborting fit."
  | FitOutcome.ran => none

/-- minimization.py lines 28-29: `parameter.start_value = parameter.value` for
every collected (free) parameter; the write goes through the shared references
into the owning objects, embedded by updating every free parameter in place. -/
def snapshotStartValues (proj : Project) : Project :=
  let snap := fun (p : Parameter) =>
    if p.free then { p with start_value := some p.value } else p
  { proj with
    sample_models := proj.sample_models.map
      (fun m => { m with params := m.params.map snap }),
    experiments := proj.experiments.map
      (fun e => { e with params := e.params.map snap }) }

/-- minimization.py lines 18-44, `DiffractionMinimizer.fit`: collects the free
parameters, aborts with a warning when none are selected, otherwise snapshots
start values and hands over to the minimizer backend (abstracted as
`minimize`, since the orchestrator's backend call does not type-check against
the in-source backends; see the claim about the backend contract). -/
def diffractionMinimizerFit (minimize : List Parameter → Project → Project)
    (proj : Project) : FitOutcome × Project :=
  let params := collectFreeParameters proj.sample_models proj.experiments
  if params = [] then (FitOutcome.abortedNoFreeParams, proj)
  else
    let proj1 := snapshotStartValues proj
    (FitOutcome.ran,
     minimize (params.map (fun p => { p with start_value := some p.value })) proj1)

/-- analysis.py lines 164-188, `Analysis.fit`: returns early with a printed
message when the project has no sample models, no experiments or no
calculator; otherwise runs the fitting workflow.  Collection truthiness
(`if not sample_models`) is emptiness; `BaseCollection` itself is missing from
the source tree. -/
def analysisFit (minimize : List Parameter → Project → Project)
    (proj : Project) : FitOutcome × Project :=
  if proj.sample_models = [] then (FitOutcome.abortedNoSampleModels, proj)
  else if proj.experiments = [] then (FitOutcome.abortedNoExperiments, proj)
  else if proj.calculator.isNone then (FitOutcome.abortedNoCalculator, proj)
  else diffractionMinimizerFit minimize proj

/-- The configuration-error conditions of the error-handling claim: no sample
models, no experiments, no calculator assigned, or zero free parameters. -/
def configError (proj : Project) : Bool :=
  decide (proj.sample_models = []) || decide (proj.experiments = []) ||
  proj.calculator.isNone ||
  decide (collectFreeParameters proj.sample_models proj.experiments = [])

/-- A Python object held in a `StandardComponent` attribute slot: a Parameter
box, a Descriptor box, or a plain (already unwrapped) value. -/
inductive PyObj where
  | pbox (p : Parameter)
  | dbox (d : Descriptor)
  | plain (q : ℚ)
  deriving Repr, DecidableEq

/-- Result of a Python attribute read: the found object or an AttributeError. -/
inductive PyAttrResult where
  | ok (o : PyObj)
  | attributeError
  deriving Repr, DecidableEq

/-- A `StandardComponent` instance (component_base.py lines 18-50): its
instance dict in insertion order and the `_locked` flag. -/
structure Component where
  dict : List (String × PyObj) := []
  locked : Bool := false
  deriving Repr, DecidableEq

/-- Python attribute read on a `StandardComponent` instance.  Default lookup
returns the object stored in the instance dict when present; only when that
lookup fails does Python invoke the `__getattr__` hook of component_base.py
lines 25-32, whose `self.__dict__.get(name, None)` then necessarily yields
`None`, so the hook raises AttributeError.  Class attributes and methods are
outside the model. -/
def standardComponentGetattr (c : Component) (name : String) : PyAttrResult :=
  match alistGet c.dict name with
  | some o => PyAttrResult.ok o
  | none => PyAttrResult.attributeError

/-- component_base.py lines 34-50, `StandardComponent.__setattr__` for a
scalar right-hand side: on a locked instance a write to an absent name is
rejected with a printed error; a write to a name holding a Parameter or
Descriptor box stores the value inside the existing box; any other write
stores a plain value in the instance dict.  `hasattr(self, name)` is embedded
as presence in the instance dict. -/
def standardComponentSetattr (c : Component) (name : String) (v : ℚ) :
    Component :=
  if c.locked && (alistGet c.dict name).isNone then c
  else
    match alistGet c.dict name with
    | some (PyObj.pbox p) =>
        { c with dict := alistSet c.dict name (PyObj.pbox { p with value := v }) }
    | some (PyObj.dbox d) =>
        { c with dict := alistSet c.dict name (PyObj.dbox { d with value := v }) }
    | _ => { c with dict := alistSet c.dict name (PyObj.plain v) }

/-- A sequence of scalar attribute assignments applied to a component. -/
def applyAssignments (c : Component) (writes : List (String × ℚ)) : Component :=
  writes.foldl (fun c2 w => standardComponentSetattr c2 w.1 w.2) c

/-- The value held by the last assignment to `name` in a write sequence, or
the fallback when the sequence never writes `name`. -/
def lastValueFor (name : String) (writes : List (String × ℚ)) (q0 : ℚ) : ℚ :=
  writes.foldl (fun acc w => if w.1 = name then w.2 else acc) q0

/-- Fixture: a calculator that reports the constant pattern 10 for the single
point of the fixture experiment, independent of the parameter environment. -/
def bkgCalculator : Calculator := fun _ _ _ => [10]

/-- Fixture: an experiment with one measured point at x = 1 of intensity 12
with uncertainty 1, and line-segment background points at (0, 2) and (2, 2),
so the interpolated background on the x grid is the single value 2. -/
def bkgExperiment : Experiment :=
  { id := "expt1",
    pattern := { x := [1], meas := [12], meas_su := [1] },
    background := [(0, 2), (2, 2)] }

/-- Fixture: a collected parameter whose uncertainty still holds a stale value
from before the fit, used to evaluate the lmfit write-back behaviour. -/
def staleParam : Parameter :=
  { uid := 0, cif_name := "cell.length_a", value := 1, free := true,
    uncertainty := some 7 }

/-- Fixture: a solver whose final solution for the single backend parameter is
5 with standard error 1/2, while its last objective evaluation used the trial
value 3. -/
def staleSolver : List (String × ℚ) → SolverRun := fun _ =>
  { evals := [[("cell_length_a", 3)]],
    result := { solution := [("cell_length_a", 5)],
                stderr := [("cell_length_a", some (1/2))],
                success := true, message := "" } }

/-- Fixture: a Parameter box as stored by `Cell.__init__` style code. -/
def lengthParam : Parameter :=
  { uid := 42, cif_name := "length_a", value := 5, free := false,
    units := "ang" }

/-- Fixture: a locked standard component holding `lengthParam` under the
attribute name `length_a`. -/
def cellComponent : Component :=
  { dict := [("length_a", PyObj.pbox lengthParam)], locked := true }

/-- Fixture: a two-point experiment for the residual-concatenation witness. -/
def twoPointExperiment : Experiment :=
  { id := "cw",
    pattern := { x := [1, 2], meas := [4, 6], meas_su := [2, 2] } }

/-- Fixture: a three-point experiment for the residual-concatenation witness. -/
def threePointExperiment : Experiment :=
  { id := "tof",
    pattern := { x := [1, 2, 3], meas := [3, 3, 3], meas_su := [1, 1, 1] } }

/-- Fixture: a calculator returning a zero pattern of the right length for
whatever experiment it is handed. -/
def zeroCalculator : Calculator := fun _ _ e => e.pattern.meas.map (fun _ => 0)

/-- Fixture: a project with a sample model holding one free parameter but no
experiments, used to exercise the configuration-error abort. -/
def noExptProject : Project :=
  { sample_models :=
      [{ id := "m1",
         params := [{ uid := 1, cif_name := "length_a", value := 3, free := true }] }],
    experiments := [],
    calculator := some zeroCalculator }

/-- Fixture: a trivial backend stub for instantiating the orchestrator. -/
def idMinimize : List Parameter → Project → Project := fun _ pr => pr

/-- Fixture: a parameter whose cif name contains a dot. -/
def collideParamA : Parameter :=
  { uid := 10, cif_name := "a.b", value := 0, free := true }

/-- Fixture: a structurally different parameter whose cif name sanitizes to
the same backend name as `collideParamA`. -/
def collideParamB : Parameter :=
  { uid := 11, cif_name := "a[b]", value := 1, free := true }

/-
Theorems.
-/

/-- Claim C4: the convergence tracking step has no guard at base.py lines
89-92.  With as many residual points as free parameters it divides by zero:
numpy yields infinity (or nan when the chi-square is itself zero) under a
runtime warning, and the call returns normally instead of reporting a fatal
configuration or data error; with fewer points than parameters it produces a
meaningless negative reduced chi-square.  Only the final conjunct, more points
than parameters, matches the claim, computing chi-square divided by
(n_points - n_free) exactly. -/
theorem trackChiSquare_unguarded_at_dof_zero :
    redChiSquare [2] 1 = NpFloat.inf ∧
    redChiSquare [0] 1 = NpFloat.nan ∧
    redChiSquare [2] 3 = NpFloat.fin (-2) ∧
    redChiSquare [2, 2] 1 = NpFloat.fin 8 ∧
    (trackChiSquare {} [2] 1).1 = [2] ∧
    (trackChiSquare {} [2] 1).2.best_chi2 = some NpFloat.inf := by
  norm_num [trackChiSquare, redChiSquare, NpFloat.div, NpFloat.lt, NpFloat.gt,
    NpFloat.sub]

/-- Claim C2: the orchestrator invokes the backend with exactly two positional
arguments (minimization.py line 34), but neither in-source backend `fit`
accepts a two-argument call: `LmfitMinimizer.fit` requires parameters,
sample_models and experiments, and `MinimizerBase.fit` requires sample_models,
experiments and calculator, so the claimed uniform contract
`fit(parameters, objective)` is violated and the call raises TypeError. -/
theorem backend_fit_contract_mismatch :
    acceptsPositional lmfitMinimizerFitSig orchestratorFitCallArgCount = false ∧
    acceptsPositional minimizerBaseFitSig orchestratorFitCallArgCount = false ∧
    acceptsPositional lmfitMinimizerFitSig 3 = true := by
  decide

/-- Claim C9 counterexample: the lmfit name sanitization maps the two distinct
original names a.b and a[b] to the same backend name, so the mapping is not
injective, and synchronizing back from the backend writes one and the same
backend value onto both originating parameters. -/
theorem sanitize_name_collision :
    sanitizeLmName "a.b" = sanitizeLmName "a[b]" ∧
    ("a.b" : String) ≠ "a[b]" ∧
    (syncFromLmParams [collideParamA, collideParamB]
        [(sanitizeLmName "a.b", 9)]).map (fun p => p.value) = [9, 9] := by
  decide

/-- Claim C10 counterexample: reading a `StandardComponent` attribute that
holds a Parameter box returns the box object itself, not its unwrapped value:
Python invokes `__getattr__` only when normal lookup fails, and the box lives
in the instance dict, so normal lookup succeeds and yields the box (the
behaviour `as_cif` and callers such as `cell.length_a.value` rely on). -/
theorem getattr_returns_box_not_value :
    standardComponentGetattr cellComponent "length_a"
        = PyAttrResult.ok (PyObj.pbox lengthParam) ∧
    standardComponentGetattr cellComponent "length_a"
        ≠ PyAttrResult.ok (PyObj.plain lengthParam.value) := by
  decide

/-- Claim C5: `LmfitMinimizer.fit` returns the raw solver result at
minimizer_lmfit.py line 71 without writing the backend's final values or
standard errors back onto the parameters: after the fit the collected
parameter retains the last objective-iterate value 3 rather than the solution
value 5, and its stale uncertainty 7 is neither set from the standard error
1/2 nor reset to null. -/
theorem lmfit_fit_no_write_back :
    (lmfitMinimizerFit [staleParam] staleSolver).2.map (fun p => p.value) = [3] ∧
    (lmfitMinimizerFit [staleParam] staleSolver).2.map (fun p => p.uncertainty)
        = [some 7] ∧
    (lmfitMinimizerFit [staleParam] staleSolver).1.solution
        = [("cell_length_a", 5)] ∧
    (lmfitMinimizerFit [staleParam] staleSolver).1.stderr
        = [("cell_length_a", some (1/2))] ∧
    ((3 : ℚ) ≠ 5 ∧ some (7 : ℚ) ≠ some (1/2) ∧ some (7 : ℚ) ≠ (none : Option ℚ)) := by
  norm_num [lmfitMinimizerFit, buildLmParams, syncFromLmParams, alistGet,
    alistSet, sanitizeLmName, sanitizeChar, staleParam, staleSolver]
  decide

/-- Claim C3: inside the objective function the calculated pattern is the raw
calculator output with no background added (minimization.py line 59), while
the repository's own display path `Analysis.calculate_pattern` does add the
interpolated background.  At the fixture the objective residual is
(12 - 10) / 1 = 2, whereas the claimed background-added comparison would give
(12 - (10 + 2)) / 1 = 0. -/
theorem objective_function_ignores_background :
    (residualFunction {} bkgCalculator [] [] [] [bkgExperiment]).1 = [2] ∧
    (analysisCalculatePattern bkgCalculator [] [] bkgExperiment).1 = [12] ∧
    residualPoints bkgExperiment.pattern.meas
        (analysisCalculatePattern bkgCalculator [] [] bkgExperiment).1
        bkgExperiment.pattern.meas_su = [0] ∧
    ([2] : List ℚ) ≠ [0] := by
  norm_num [residualFunction, analysisCalculatePattern, residualPoints,
    zipWith3Q, syncResultToParameters, trackChiSquare, redChiSquare,
    NpFloat.div, NpFloat.lt, NpFloat.gt, NpFloat.sub, interpSegments,
    interpAfter, bkgCalculator, bkgExperiment]
  norm_num [List.zipWith]

/-- The three-way zip is as long as its shortest input. -/
theorem zipWith3Q_length (f : ℚ → ℚ → ℚ → ℚ) :
    ∀ (a b c : List ℚ),
      (zipWith3Q f a b c).length = min a.length (min b.length c.length)
  | [], _, _ => by simp [zipWith3Q]
  | _ :: _, [], _ => by simp [zipWith3Q]
  | _ :: _, _ :: _, [] => by simp [zipWith3Q]
  | _ :: a, _ :: b, _ :: c => by
      simp [zipWith3Q, zipWith3Q_length f a b c]
      omega

/-- Claim C1: on every objective call, after the optimizer-provided values are
written onto the collected parameters, the returned residual vector is the
concatenation, over experiments in declaration order, of the per-point values
(measured - calculated) / measured-uncertainty in each experiment's native
point order, and its length is the sum of the experiments' point counts.  The
hypotheses state that each calculator output and uncertainty array is aligned
with the measured grid, as the calculator and data contracts require. -/
theorem residual_function_concatenates (tr : TrackerState)
    (calculator : Calculator) (params : List Parameter) (engineVec : List ℚ)
    (ms : List SampleModel) (es : List Experiment)
    (hcalc : ∀ e ∈ es,
      (calculator (syncResultToParameters params engineVec) ms e).length
        = e.pattern.meas.length)
    (hsu : ∀ e ∈ es, e.pattern.meas_su.length = e.pattern.meas.length) :
    (residualFunction tr calculator params engineVec ms es).1
      = (es.map (fun e => residualPoints e.pattern.meas
          (calculator (syncResultToParameters params engineVec) ms e)
          e.pattern.meas_su)).flatten
    ∧ (residualFunction tr calculator params engineVec ms es).1.length
      = (es.map (fun e => e.pattern.meas.length)).sum := by
  have hpt : (residualFunction tr calculator params engineVec ms es).1
      = (es.map (fun e => residualPoints e.pattern.meas
          (calculator (syncResultToParameters params engineVec) ms e)
          e.pattern.meas_su)).flatten := rfl
  refine ⟨hpt, ?_⟩
  have hlen : ∀ e ∈ es,
      (residualPoints e.pattern.meas
        (calculator (syncResultToParameters params engineVec) ms e)
        e.pattern.meas_su).length = e.pattern.meas.length := by
    intro e he
    rw [residualPoints, zipWith3Q_length, hcalc e he, hsu e he]
    omega
  rw [hpt, List.length_flatten, List.map_map]
  refine congrArg List.sum (List.map_congr_left ?_)
  intro e he
  simpa using hlen e he

/-- Witness for the residual-concatenation theorem: two experiments with two
and three points contribute their residuals in declaration order and the
residual vector has length 2 + 3 = 5. -/
theorem residual_function_concatenates_witness :
    (residualFunction {} zeroCalculator [] [] []
        [twoPointExperiment, threePointExperiment]).1
      = ([twoPointExperiment, threePointExperiment].map (fun e =>
          residualPoints e.pattern.meas
            (zeroCalculator (syncResultToParameters [] []) [] e)
            e.pattern.meas_su)).flatten
    ∧ (residualFunction {} zeroCalculator [] [] []
        [twoPointExperiment, threePointExperiment]).1.length = 5 := by
  have h := residual_function_concatenates {} zeroCalculator [] [] []
    [twoPointExperiment, threePointExperiment]
    (by intro e he; simp [zeroCalculator])
    (by
      intro e he
      fin_cases he <;> rfl)
  refine ⟨h.1, h.2.trans ?_⟩
  rfl

/-- Claim C6: collecting free parameters returns the sample models' free
parameters followed by the experiments' free parameters, equal to the
free-flag filter of the full traversal in deterministic insertion order; the
collector hands the collections back unchanged (it performs no writes), and
collecting again from the returned state yields the identical parameter list
in the same order. -/
theorem collect_free_parameters_deterministic (ms : List SampleModel)
    (es : List Experiment) :
    collectFreeParameters ms es
      = (traversalParameters ms es).filter (fun p => p.free)
    ∧ (SampleModels.get_free_params ms).2 = ms
    ∧ (Experiments.get_free_params es).2 = es
    ∧ collectFreeParameters (SampleModels.get_free_params ms).2
        (Experiments.get_free_params es).2 = collectFreeParameters ms es := by
  refine ⟨?_, rfl, rfl, rfl⟩
  simp [collectFreeParameters, traversalParameters,
    SampleModels.get_free_params, Experiments.get_free_params,
    List.filter_append, List.filter_flatten, List.map_map, Function.comp_def]

/-- The tracker step is the composition of its two update layers. -/
theorem trackChiSquare_eq (st : TrackerState) (res : List ℚ) (n : Nat) :
    trackChiSquare st res n
      = (res, trackBestUpdate (trackPrevUpdate st (redChiSquare res n))
          (redChiSquare res n)) := rfl

/-- No embedded float is IEEE-less-than itself (nan compares false). -/
theorem NpFloat.lt_self (a : NpFloat) : NpFloat.lt a a = false := by
  cases a <;> simp [NpFloat.lt]

/-- When a previous reduced chi-square is recorded, the first update layer
touches neither the best-so-far fields. -/
theorem trackPrevUpdate_of_some (st : TrackerState) (prev : NpFloat)
    (red : NpFloat) (h : st.previous_chi2 = some prev) :
    (trackPrevUpdate st red).best_chi2 = st.best_chi2
    ∧ (trackPrevUpdate st red).best_iteration = st.best_iteration
    ∧ (trackPrevUpdate st red).previous_chi2.isSome := by
  simp only [trackPrevUpdate, h]
  split <;> simp [h]

/-- On the first call the first update layer records the value as previous and
best without advancing the iteration counter. -/
theorem trackPrevUpdate_of_none (st : TrackerState) (red : NpFloat)
    (h : st.previous_chi2 = none) :
    trackPrevUpdate st red
      = { st with previous_chi2 := some red, best_chi2 := some red,
                  best_iteration := some st.iteration } := by
  simp [trackPrevUpdate, h]

/-- Iteration advance of the first update layer for finite values: exactly
when the relative improvement over the recorded positive previous value is
strictly above one percent. -/
theorem trackPrevUpdate_iteration_fin (st : TrackerState) (p r : ℚ)
    (hprev : st.previous_chi2 = some (NpFloat.fin p)) (hp : 0 < p) :
    (trackPrevUpdate st (NpFloat.fin r)).iteration
      = (if (p - r) / p > 1/100 then st.iteration + 1 else st.iteration) := by
  have hp0 : p ≠ 0 := ne_of_gt hp
  simp only [trackPrevUpdate, hprev, NpFloat.sub, NpFloat.div, NpFloat.gt,
    NpFloat.lt, if_neg hp0]
  rw [apply_ite (fun s : TrackerState => s.iteration)]
  simp [gt_iff_lt]

/-- The second update layer never touches iteration or previous. -/
theorem trackBestUpdate_iteration (st1 : TrackerState) (red : NpFloat) :
    (trackBestUpdate st1 red).iteration = st1.iteration
    ∧ (trackBestUpdate st1 red).previous_chi2 = st1.previous_chi2 := by
  simp only [trackBestUpdate]
  split
  · simp
  · split <;> simp

/-- The second update layer for finite values keeps the minimum seen so far
and records the current iteration index when the minimum changes. -/
theorem trackBestUpdate_best_fin (st1 : TrackerState) (m r : ℚ)
    (h : st1.best_chi2 = some (NpFloat.fin m)) :
    (trackBestUpdate st1 (NpFloat.fin r)).best_chi2
        = some (NpFloat.fin (min m r))
    ∧ (trackBestUpdate st1 (NpFloat.fin r)).best_iteration
        = (if r < m then some st1.iteration else st1.best_iteration)
    ∧ (trackBestUpdate st1 (NpFloat.fin r)).previous_chi2 = st1.previous_chi2 := by
  simp only [trackBestUpdate, h, NpFloat.lt]
  by_cases hrm : r < m
  · simp [hrm, min_eq_right (le_of_lt hrm)]
  · simp [hrm, min_eq_left (le_of_not_lt hrm), h]

/-- Processing further calls whose reduced chi-squares are the finite values
`rs` folds the recorded best down by `min`. -/
theorem runTracker_best_aux :
    ∀ (calls : List (List ℚ × Nat)) (rs : List ℚ) (st : TrackerState) (m : ℚ),
      st.previous_chi2.isSome → st.best_chi2 = some (NpFloat.fin m) →
      calls.map (fun c => redChiSquare c.1 c.2) = rs.map NpFloat.fin →
      (runTracker st calls).best_chi2 = some (NpFloat.fin (rs.foldl min m))
  | [], rs, st, m, _, hbest, hmap => by
      cases rs with
      | nil => simpa [runTracker] using hbest
      | cons r rs => simp at hmap
  | c :: calls, rs, st, m, hprev, hbest, hmap => by
      cases rs with
      | nil => simp at hmap
      | cons r rs =>
          simp only [List.map_cons, List.cons.injEq] at hmap
          obtain ⟨hr, hrest⟩ := hmap
          obtain ⟨prev, hpv⟩ := Option.isSome_iff_exists.mp hprev
          have hrun : runTracker st (c :: calls)
              = runTracker ((trackChiSquare st c.1 c.2).2) calls := by
            simp [runTracker]
          have hlayer1 := trackPrevUpdate_of_some st prev (redChiSquare c.1 c.2) hpv
          have hlayer2 := trackBestUpdate_best_fin
            (trackPrevUpdate st (redChiSquare c.1 c.2)) m r
            (hlayer1.1.trans hbest)
          have hstep : (trackChiSquare st c.1 c.2).2.best_chi2
              = some (NpFloat.fin (min m r)) := by
            rw [trackChiSquare_eq, hr]
            rw [hr] at hlayer2
            exact hlayer2.1
          have hstepPrev : (trackChiSquare st c.1 c.2).2.previous_chi2.isSome := by
            rw [trackChiSquare_eq, hr]
            rw [hr] at hlayer2 hlayer1
            rw [hlayer2.2.2]
            exact hlayer1.2.2
          have := runTracker_best_aux calls rs ((trackChiSquare st c.1 c.2).2)
            (min m r) hstepPrev hstep hrest
          rw [hrun, this]
          simp [List.foldl]

/-- Claim C7: within one fit the tracker's iteration counter advances exactly
when the newly computed reduced chi-square improves on the previously recorded
one by strictly more than one percent relative (the first call, with no
previous record, never advances it); each call returns the residual vector it
was given, unmodified; per call the best-so-far field keeps the minimum of the
recorded best and the new value together with the iteration index current when
the minimum was recorded, so across a whole run from the initial state the
tracker retains the minimum reduced chi-square seen. -/
theorem tracker_iteration_and_best (st : TrackerState) (res : List ℚ) (n : Nat) :
    (trackChiSquare st res n).1 = res
    ∧ (st.previous_chi2 = none →
        (trackChiSquare st res n).2.iteration = st.iteration)
    ∧ (∀ p r : ℚ, st.previous_chi2 = some (NpFloat.fin p) → 0 < p →
        redChiSquare res n = NpFloat.fin r →
        (trackChiSquare st res n).2.iteration
          = (if (p - r) / p > 1/100 then st.iteration + 1 else st.iteration))
    ∧ (∀ b r : ℚ, st.previous_chi2.isSome →
        st.best_chi2 = some (NpFloat.fin b) →
        redChiSquare res n = NpFloat.fin r →
        ((trackChiSquare st res n).2.best_chi2,
          (trackChiSquare st res n).2.best_iteration)
          = (if r < b
             then (some (NpFloat.fin r),
                   some ((trackChiSquare st res n).2.iteration))
             else (st.best_chi2, st.best_iteration)))
    ∧ (∀ (calls : List (List ℚ × Nat)) (r0 : ℚ) (rs : List ℚ),
        calls.map (fun c => redChiSquare c.1 c.2) = (r0 :: rs).map NpFloat.fin →
        (runTracker {} calls).best_chi2
          = some (NpFloat.fin (rs.foldl min r0))) := by
  refine ⟨rfl, ?_, ?_, ?_, ?_⟩
  · intro h
    rw [trackChiSquare_eq]
    rw [(trackBestUpdate_iteration _ _).1, trackPrevUpdate_of_none st _ h]
  · intro p r hprev hp hred
    rw [trackChiSquare_eq, hred]
    rw [(trackBestUpdate_iteration _ _).1]
    exact trackPrevUpdate_iteration_fin st p r hprev hp
  · intro b r hsome hbest hred
    obtain ⟨prev, hpv⟩ := Option.isSome_iff_exists.mp hsome
    have hlayer1 := trackPrevUpdate_of_some st prev (NpFloat.fin r) hpv
    have hlayer2 := trackBestUpdate_best_fin
      (trackPrevUpdate st (NpFloat.fin r)) b r (hlayer1.1.trans hbest)
    rw [trackChiSquare_eq, hred]
    rw [hlayer2.1, hlayer2.2.1, (trackBestUpdate_iteration _ _).1]
    by_cases hrb : r < b
    · simp [hrb, min_eq_right (le_of_lt hrb)]
    · simp [hrb, min_eq_left (le_of_not_lt hrb), hbest.symm, hlayer1.2.1]
  · intro calls r0 rs hmap
    cases calls with
    | nil => simp at hmap
    | cons c calls =>
        simp only [List.map_cons, List.cons.injEq] at hmap
        obtain ⟨hr0, hrest⟩ := hmap
        have hrun : runTracker {} (c :: calls)
            = runTracker ((trackChiSquare {} c.1 c.2).2) calls := by
          simp [runTracker]
        have hfirst : trackPrevUpdate {} (redChiSquare c.1 c.2)
            = { previous_chi2 := some (redChiSquare c.1 c.2), iteration := 0,
                best_chi2 := some (redChiSquare c.1 c.2),
                best_iteration := some 0 } :=
          trackPrevUpdate_of_none {} _ rfl
        have hstep : (trackChiSquare {} c.1 c.2).2.best_chi2
            = some (NpFloat.fin r0) := by
          rw [trackChiSquare_eq, hfirst, hr0]
          simp [trackBestUpdate, NpFloat.lt_self]
        have hstepPrev : (trackChiSquare {} c.1 c.2).2.previous_chi2.isSome := by
          rw [trackChiSquare_eq, hfirst, hr0]
          simp [trackBestUpdate, NpFloat.lt_self]
        have := runTracker_best_aux calls rs ((trackChiSquare {} c.1 c.2).2)
          r0 hstepPrev hstep hrest
        rw [hrun, this]

/-- Witness for the tracker theorem: from a state with previous and best
reduced chi-square 4 at iteration 0, a call whose reduced chi-square is 1
returns its residual vector unchanged, advances the iteration (improvement
3/4 > 1/100), records the new minimum 1 with the advanced index, and a run of
two calls with reduced chi-squares 1 and 4 retains the minimum 1. -/
theorem tracker_iteration_and_best_witness :
    (trackChiSquare ⟨some (NpFloat.fin 4), 0, some (NpFloat.fin 4), some 0⟩
        [1, 1] 0).1 = [1, 1]
    ∧ (trackChiSquare ⟨some (NpFloat.fin 4), 0, some (NpFloat.fin 4), some 0⟩
        [1, 1] 0).2.iteration
        = (if ((4 : ℚ) - 1) / 4 > 1/100 then 0 + 1 else 0)
    ∧ ((trackChiSquare ⟨some (NpFloat.fin 4), 0, some (NpFloat.fin 4), some 0⟩
          [1, 1] 0).2.best_chi2,
       (trackChiSquare ⟨some (NpFloat.fin 4), 0, some (NpFloat.fin 4), some 0⟩
          [1, 1] 0).2.best_iteration)
        = (if (1 : ℚ) < 4
           then (some (NpFloat.fin 1),
                 some ((trackChiSquare
                    ⟨some (NpFloat.fin 4), 0, some (NpFloat.fin 4), some 0⟩
                    [1, 1] 0).2.iteration))
           else (some (NpFloat.fin 4), some 0))
    ∧ (runTracker {} [([1, 1], 0), ([2], 0)]).best_chi2
        = some (NpFloat.fin ([4].foldl min 1)) := by
  have h := tracker_iteration_and_best
    ⟨some (NpFloat.fin 4), 0, some (NpFloat.fin 4), some 0⟩ [1, 1] 0
  have hred : redChiSquare [1, 1] 0 = NpFloat.fin 1 := by
    norm_num [redChiSquare, NpFloat.div]
  refine ⟨h.1, ?_, ?_, ?_⟩
  · exact h.2.2.1 4 1 rfl (by norm_num) hred
  · exact h.2.2.2.1 4 1 rfl rfl hred
  · refine h.2.2.2.2 [([1, 1], 0), ([2], 0)] 1 [4] ?_
    have hred2 : redChiSquare [2] 0 = NpFloat.fin 4 := by
      norm_num [redChiSquare, NpFloat.div]
    simp [hred, hred2]

/-- Claim C8: on every configuration-error input (no sample models, no
experiments, no calculator assigned, or zero free parameters) the top-level
fit returns early with a descriptive message, leaves the project state (and so
every parameter's value, start value and uncertainty) unchanged, and never
reaches the optimizer: the outcome is the same whatever backend is plugged
in. -/
theorem analysis_fit_aborts_on_config_error
    (minimize : List Parameter → Project → Project) (proj : Project)
    (h : configError proj = true) :
    (analysisFit minimize proj).2 = proj
    ∧ (analysisFit minimize proj).1 ≠ FitOutcome.ran
    ∧ (abortMessage (analysisFit minimize proj).1).isSome
    ∧ ∀ minimize2, analysisFit minimize2 proj = analysisFit minimize proj := by
  unfold configError at h
  simp only [Bool.or_eq_true, decide_eq_true_eq] at h
  unfold analysisFit diffractionMinimizerFit
  by_cases h1 : proj.sample_models = []
  · simp [h1, abortMessage]
  · by_cases h2 : proj.experiments = []
    · simp [h1, h2, abortMessage]
    · by_cases h3 : proj.calculator.isNone = true
      · simp [h1, h2, h3, abortMessage]
      · have h4 : collectFreeParameters proj.sample_models proj.experiments
            = [] := by
          rcases h with ((h4 | h4) | h4) | h4
          · exact absurd h4 h1
          · exact absurd h4 h2
          · exact absurd h4 h3
          · exact h4
        simp [h1, h2, h3, h4, abortMessage]

/-- Witness for the configuration-error theorem: a project with a sample model
holding a free parameter but no experiments aborts, keeps its state, carries a
message, and ignores the backend. -/
theorem analysis_fit_aborts_on_config_error_witness :
    (analysisFit idMinimize noExptProject).2 = noExptProject
    ∧ (analysisFit idMinimize noExptProject).1 ≠ FitOutcome.ran
    ∧ (abortMessage (analysisFit idMinimize noExptProject).1).isSome
    ∧ ∀ minimize2,
        analysisFit minimize2 noExptProject
          = analysisFit idMinimize noExptProject :=
  analysis_fit_aborts_on_config_error idMinimize noExptProject rfl

/-- Reading past a head binding with a different key. -/
theorem alistGet_cons_ne {α : Type} (k0 : String) (v : α)
    (l : List (String × α)) (k : String) (h : k0 ≠ k) :
    alistGet ((k0, v) :: l) k = alistGet l k := by
  simp [alistGet, h]

/-- Writing a key that is absent appends the binding at the end. -/
theorem alistSet_of_get_none {α : Type} :
    ∀ (l : List (String × α)) (k : String) (v : α),
      alistGet l k = none → alistSet l k v = l ++ [(k, v)]
  | [], _, _, _ => rfl
  | p :: l, k, v, h => by
      by_cases hk : p.1 = k
      · simp [alistGet, hk] at h
      · simp only [alistSet, hk, if_false, List.cons_append, List.cons.injEq,
          true_and]
        exact alistSet_of_get_none l k v (by simpa [alistGet, hk] using h)

/-- Lookup skips a prefix in which the key is absent. -/
theorem alistGet_append_of_none {α : Type} :
    ∀ (l1 l2 : List (String × α)) (k : String),
      alistGet l1 k = none → alistGet (l1 ++ l2) k = alistGet l2 k
  | [], _, _, _ => rfl
  | p :: l1, l2, k, h => by
      by_cases hk : p.1 = k
      · simp [alistGet, hk] at h
      · simpa [alistGet, hk] using
          alistGet_append_of_none l1 l2 k (by simpa [alistGet, hk] using h)

/-- Folding dict writes with pairwise fresh, nodup keys just appends the
bindings in order. -/
theorem foldl_alistSet_fresh {α : Type} :
    ∀ (pairs acc : List (String × α)),
      (pairs.map Prod.fst).Nodup →
      (∀ k ∈ pairs.map Prod.fst, alistGet acc k = none) →
      pairs.foldl (fun a kv => alistSet a kv.1 kv.2) acc = acc ++ pairs
  | [], acc, _, _ => by simp
  | kv :: pairs, acc, hnodup, hfresh => by
      have hhead : alistGet acc kv.1 = none := hfresh kv.1 (by simp)
      rw [List.map_cons, List.nodup_cons] at hnodup
      have hfresh2 : ∀ k ∈ pairs.map Prod.fst,
          alistGet (acc ++ [kv]) k = none := by
        intro k hk
        have hne : kv.1 ≠ k := fun he => hnodup.1 (he ▸ hk)
        rw [alistGet_append_of_none acc [kv] k (hfresh k (by simp [hk]))]
        simp [alistGet, hne]
      have hrec := foldl_alistSet_fresh pairs (acc ++ [kv]) hnodup.2 hfresh2
      calc (kv :: pairs).foldl (fun a kv => alistSet a kv.1 kv.2) acc
          = pairs.foldl (fun a kv => alistSet a kv.1 kv.2)
              (alistSet acc kv.1 kv.2) := rfl
        _ = pairs.foldl (fun a kv => alistSet a kv.1 kv.2) (acc ++ [kv]) := by
              rw [alistSet_of_get_none acc kv.1 kv.2 hhead]
        _ = (acc ++ [kv]) ++ pairs := hrec
        _ = acc ++ (kv :: pairs) := by simp

/-- The keys of the zipped name-value pairs are the sanitized names. -/
theorem map_fst_zip_sanitize :
    ∀ (params : List Parameter) (vs : List ℚ), vs.length = params.length →
      (List.zipWith (fun p v => (sanitizeLmName p.cif_name, v)) params vs).map
          Prod.fst
        = params.map (fun p => sanitizeLmName p.cif_name)
  | [], [], _ => rfl
  | [], _ :: _, h => by simp at h
  | _ :: _, [], h => by simp at h
  | p :: ps, v :: vs, h => by
      simpa using map_fst_zip_sanitize ps vs (by simpa using h)

/-- Synchronization ignores a leading backend binding whose key matches none
of the parameters. -/
theorem syncFromLmParams_cons_fresh (ps : List Parameter) (k0 : String)
    (v : ℚ) (lm : List (String × ℚ))
    (h : ∀ q ∈ ps, k0 ≠ sanitizeLmName q.cif_name) :
    syncFromLmParams ps ((k0, v) :: lm) = syncFromLmParams ps lm := by
  unfold syncFromLmParams
  refine List.map_congr_left ?_
  intro q hq
  rw [alistGet_cons_ne k0 v lm _ (h q hq)]

/-- Synchronizing back from the plain zipped container writes each value onto
its own parameter when the sanitized names are pairwise distinct. -/
theorem syncFromLmParams_zip_plain :
    ∀ (params : List Parameter) (vs : List ℚ), vs.length = params.length →
      (params.map (fun p => sanitizeLmName p.cif_name)).Nodup →
      syncFromLmParams params
          (List.zipWith (fun p v => (sanitizeLmName p.cif_name, v)) params vs)
        = List.zipWith (fun p v => { p with value := v }) params vs
  | [], _, _, _ => rfl
  | _ :: _, [], h, _ => by simp at h
  | p :: ps, v :: vs, hlen, hnodup => by
      rw [List.map_cons, List.nodup_cons] at hnodup
      have hne : ∀ q ∈ ps, sanitizeLmName p.cif_name ≠ sanitizeLmName q.cif_name := by
        intro q hq he
        exact hnodup.1 (he ▸ List.mem_map_of_mem (fun r => sanitizeLmName r.cif_name) hq)
      have htail := syncFromLmParams_zip_plain ps vs (by simpa using hlen) hnodup.2
      calc syncFromLmParams (p :: ps)
            ((sanitizeLmName p.cif_name, v)
              :: List.zipWith (fun q w => (sanitizeLmName q.cif_name, w)) ps vs)
          = { p with value := v }
            :: syncFromLmParams ps
                ((sanitizeLmName p.cif_name, v)
                  :: List.zipWith (fun q w => (sanitizeLmName q.cif_name, w)) ps vs) := by
            simp [syncFromLmParams, alistGet]
        _ = { p with value := v }
            :: syncFromLmParams ps
                (List.zipWith (fun q w => (sanitizeLmName q.cif_name, w)) ps vs) := by
            rw [syncFromLmParams_cons_fresh ps _ v _ hne]
        _ = { p with value := v }
            :: List.zipWith (fun q w => { q with value := w }) ps vs := by
            rw [htail]

/-- Claim C9 amended: whenever the sanitized names of the collected parameters
are pairwise distinct, the backend container built by repeated `add` under the
sanitized names and read back through the same sanitization writes each
backend value onto exactly the parameter it originated from, in order. -/
theorem sanitize_nodup_roundtrip (params : List Parameter) (vs : List ℚ)
    (hlen : vs.length = params.length)
    (hnodup : (params.map (fun p => sanitizeLmName p.cif_name)).Nodup) :
    syncFromLmParams params (lmParamsFrom params vs)
      = List.zipWith (fun p v => { p with value := v }) params vs := by
  have hkeys : ((List.zipWith (fun p v => (sanitizeLmName p.cif_name, v))
      params vs).map Prod.fst).Nodup := by
    rw [map_fst_zip_sanitize params vs hlen]
    exact hnodup
  have hbuild : lmParamsFrom params vs
      = List.zipWith (fun p v => (sanitizeLmName p.cif_name, v)) params vs := by
    unfold lmParamsFrom
    rw [foldl_alistSet_fresh _ [] hkeys (by intro k _; rfl)]
    simp
  rw [hbuild]
  exact syncFromLmParams_zip_plain params vs hlen hnodup

/-- Witness for the amended round-trip: two parameters with distinct sanitized
names receive exactly their own backend values. -/
theorem sanitize_nodup_roundtrip_witness :
    syncFromLmParams [staleParam, lengthParam]
        (lmParamsFrom [staleParam, lengthParam] [5, 6])
      = List.zipWith (fun p v => { p with value := v })
          [staleParam, lengthParam] [5, 6] :=
  sanitize_nodup_roundtrip [staleParam, lengthParam] [5, 6] rfl (by decide)

/-- Overwriting a key and reading it back. -/
theorem alistGet_alistSet_self {α : Type} :
    ∀ (l : List (String × α)) (k : String) (v : α),
      alistGet (alistSet l k v) k = some v
  | [], k, v => by simp [alistSet, alistGet]
  | p :: l, k, v => by
      by_cases hk : p.1 = k
      · simp [alistSet, hk, alistGet]
      · simp [alistSet, hk, alistGet, alistGet_alistSet_self l k v]

/-- Writing one key leaves the bindings of the others alone. -/
theorem alistGet_alistSet_other {α : Type} :
    ∀ (l : List (String × α)) (k k' : String) (v : α), k ≠ k' →
      alistGet (alistSet l k v) k' = alistGet l k'
  | [], k, k', v, h => by simp [alistSet, alistGet, h]
  | p :: l, k, k', v, h => by
      by_cases hk : p.1 = k
      · have hp : p.1 ≠ k' := hk ▸ h
        simp [alistSet, hk, alistGet, h, hp]
      · by_cases hk' : p.1 = k'
        · simp [alistSet, hk, alistGet, hk', Ne.symm h]
        · simp [alistSet, hk, alistGet, hk',
            alistGet_alistSet_other l k k' v h]

/-- One `__setattr__` call seen from a fixed attribute that holds a Parameter
box: a write to that attribute stores the value inside the existing box, any
other write leaves the binding untouched. -/
theorem setattr_step_box (c : Component) (name : String) (p : Parameter)
    (k : String) (w : ℚ)
    (h : alistGet c.dict name = some (PyObj.pbox p)) :
    alistGet (standardComponentSetattr c k w).dict name
      = some (PyObj.pbox (if k = name then { p with value := w } else p)) := by
  by_cases hk : k = name
  · subst hk
    simp [standardComponentSetattr, h, alistGet_alistSet_self]
  · unfold standardComponentSetattr
    by_cases hl : c.locked && (alistGet c.dict k).isNone
    · simp [hl, h, hk]
    · cases hobj : alistGet c.dict k with
      | none =>
          have hlock : c.locked = false := by simpa [hobj] using hl
          simp [hlock, hobj, alistGet_alistSet_other c.dict k name _ hk, h, hk]
      | some o =>
          cases o <;>
            simp [hl, hobj, alistGet_alistSet_other c.dict k name _ hk, h, hk]

/-- Claim C10 amended: for a `StandardComponent` attribute currently holding a
Parameter box, any sequence of scalar attribute assignments ends with the same
box updated in place: the stored object is still a Parameter box whose only
changed field is `value` (now the last value assigned to that attribute, or
the original when none was), so identity, cif name, free flag and units are
preserved; and reading the attribute returns that box itself. -/
theorem setattr_writes_into_existing_box :
    ∀ (writes : List (String × ℚ)) (c : Component) (name : String)
      (p : Parameter),
      alistGet c.dict name = some (PyObj.pbox p) →
      alistGet (applyAssignments c writes).dict name
          = some (PyObj.pbox
              { p with value := lastValueFor name writes p.value })
      ∧ standardComponentGetattr (applyAssignments c writes) name
          = PyAttrResult.ok (PyObj.pbox
              { p with value := lastValueFor name writes p.value })
  | [], c, name, p, h => by
      have hget : alistGet (applyAssignments c []).dict name
          = some (PyObj.pbox { p with value := lastValueFor name [] p.value }) :=
        h
      exact ⟨hget, by unfold standardComponentGetattr; rw [hget]⟩
  | (k, w) :: writes, c, name, p, h => by
      have hstep := setattr_step_box c name p k w h
      by_cases hk : k = name
      · subst hk
        rw [if_pos rfl] at hstep
        have hrec := setattr_writes_into_existing_box writes
          (standardComponentSetattr c k w) k { p with value := w } hstep
        have hval : lastValueFor k writes w
            = lastValueFor k ((k, w) :: writes) p.value := by
          simp [lastValueFor]
        constructor
        · have := hrec.1
          rw [hval] at this
          exact this
        · have := hrec.2
          rw [hval] at this
          exact this
      · rw [if_neg hk] at hstep
        have hrec := setattr_writes_into_existing_box writes
          (standardComponentSetattr c k w) name p hstep
        have hval : lastValueFor name writes p.value
            = lastValueFor name ((k, w) :: writes) p.value := by
          simp [lastValueFor, hk]
        constructor
        · have := hrec.1
          rw [hval] at this
          exact this
        · have := hrec.2
          rw [hval] at this
          exact this

/-- Witness for the amended box-write theorem: two assignments, one to the
boxed attribute and one to another name, leave the original box with only the
value changed, and reading returns the box. -/
theorem setattr_writes_into_existing_box_witness :
    alistGet (applyAssignments cellComponent
        [("length_a", 9), ("other", 1)]).dict "length_a"
      = some (PyObj.pbox { lengthParam with
          value := lastValueFor "length_a" [("length_a", 9), ("other", 1)]
            lengthParam.value })
    ∧ standardComponentGetattr (applyAssignments cellComponent
        [("length_a", 9), ("other", 1)]) "length_a"
      = PyAttrResult.ok (PyObj.pbox { lengthParam with
          value := lastValueFor "length_a" [("length_a", 9), ("other", 1)]
            lengthParam.value }) :=
  setattr_writes_into_existing_box [("length_a", 9), ("other", 1)]
    cellComponent "length_a" lengthParam (by decide)

end EasyDiffraction
